import Mathlib

/-!
Verification of the giveaway lifecycle engine of `better-discord-giveaways`.

The development shallowly embeds the TypeScript sources:

* `src/RequirementCheck.ts` — the eligibility pipeline (`checkRequirements`);
* `src/GiveawayManager.ts` — the lifecycle engine (`start`, `end`, `edit`,
  `restoreTimeouts`, `pickWinners`, `setTimeoutForGiveaway`,
  `setReactionCollector`);
* `src/storage/JSONAdapter.ts` — the persistence adapter (`save`, `get`,
  `edit` = delete-then-save), modelled as operations on a record list.

Asynchronous platform calls (channel fetch, message fetch, reaction-user
fetch) are modelled by an explicit environment; `Math.random`-driven
nondeterminism (`generateId`, the comparator shuffle in `pickWinners`) is
modelled by explicit parameters.  Side effects (persistence writes, event
emissions, message posts/edits) are recorded in an ordered effect trace.
JavaScript truthiness of the optional numeric requirement fields is kept:
a field holding `0` is falsy and disables its check.
-/

/-- A Discord user as consumed by the pipeline: `user.id`, `user.bot`,
`user.createdTimestamp`. -/
structure User where
  id : String
  bot : Bool
  createdTimestamp : Int
deriving DecidableEq

/-- A guild member as consumed by the pipeline: the role ids in
`member.roles.cache` and `member.joinedTimestamp` (`null` ⇒ `none`). -/
structure GuildMember where
  roles : List String
  joinedTimestamp : Option Int
deriving DecidableEq

/-- Result of the user-supplied custom predicate
(`Promise<{passed: boolean, reason: string}>`, awaited value). -/
structure CustomResult where
  passed : Bool
  reason : String
deriving DecidableEq

/-- `GiveawayRequirements` from `src/types/index.ts`.  The asynchronous
custom predicate is modelled as a pure function from the user id to its
awaited result. -/
structure GiveawayRequirements where
  requiredRoles : Option (List String)
  accountAgeMin : Option Int
  joinedServerBefore : Option Int
  custom : Option (String → CustomResult)

/-- Which check produced a rejection, with the data its localized reason
string is rendered from (string rendering via `t`/`i18n` is out of scope). -/
inductive Reason where
  | roles (required : List String)
  | accountAge (threshold : Int)
  | joinedBefore (threshold : Int)
  | custom (text : String)
deriving DecidableEq

/-- The `{passed, reason?}` record returned by `checkRequirements`. -/
structure CheckResult where
  passed : Bool
  reason : Option Reason
deriving DecidableEq

/-- Stage of `checkRequirements` after the `custom` guard
(`if (requirements.custom) …` and the final `return { passed: true }`). -/
def checkAfterJoined (user : User) (req : GiveawayRequirements) : CheckResult :=
  match req.custom with
  | some f =>
      let c := f user.id
      if !c.passed then { passed := false, reason := some (Reason.custom c.reason) }
      else { passed := true, reason := none }
  | none => { passed := true, reason := none }

/-- Stage of `checkRequirements` after the `joinedServerBefore` guard
(`if (requirements.joinedServerBefore) …`; a `0` threshold is falsy). -/
def checkAfterAccount (user : User) (member : GuildMember)
    (req : GiveawayRequirements) : CheckResult :=
  match req.joinedServerBefore with
  | some j =>
      if j ≠ 0 then
        match member.joinedTimestamp with
        | none => { passed := false, reason := some (Reason.joinedBefore j) }
        | some jt =>
            if jt > j then { passed := false, reason := some (Reason.joinedBefore j) }
            else checkAfterJoined user req
      else checkAfterJoined user req
  | none => checkAfterJoined user req

/-- Stage of `checkRequirements` after the `accountAgeMin` guard
(`if (requirements.accountAgeMin) …`; a `0` threshold is falsy). -/
def checkAfterRoles (user : User) (member : GuildMember)
    (req : GiveawayRequirements) : CheckResult :=
  match req.accountAgeMin with
  | some a =>
      if a ≠ 0 then
        if user.createdTimestamp > a then
          { passed := false, reason := some (Reason.accountAge a) }
        else checkAfterAccount user member req
      else checkAfterAccount user member req
  | none => checkAfterAccount user member req

/-- `checkRequirements` from `src/RequirementCheck.ts`.  An absent
requirement set passes unconditionally; otherwise the checks run in the
source order roles → account age → joined-before → custom, returning at the
first failure. -/
def checkRequirements (user : User) (member : GuildMember)
    (requirements : Option GiveawayRequirements) : CheckResult :=
  match requirements with
  | none => { passed := true, reason := none }
  | some req =>
      match req.requiredRoles with
      | some roles =>
          if !(roles.all fun roleId => member.roles.contains roleId) then
            { passed := false, reason := some (Reason.roles roles) }
          else checkAfterRoles user member req
      | none => checkAfterRoles user member req

/-- The roles sub-check in isolation: `requiredRoles.every(id => member.roles.cache.has(id))`,
vacuously true when the field is absent. -/
def rolesCheckPasses (member : GuildMember) (req : GiveawayRequirements) : Bool :=
  match req.requiredRoles with
  | some roles => roles.all fun roleId => member.roles.contains roleId
  | none => true

/-- The account-age sub-check in isolation: fails iff the (truthy) threshold
is exceeded by the account-creation timestamp. -/
def accountCheckPasses (user : User) (req : GiveawayRequirements) : Bool :=
  match req.accountAgeMin with
  | some a => if a ≠ 0 then decide (user.createdTimestamp ≤ a) else true
  | none => true

/-- The joined-before sub-check in isolation: with a truthy threshold, fails
iff the join timestamp is `null` or exceeds the threshold. -/
def joinedCheckPasses (member : GuildMember) (req : GiveawayRequirements) : Bool :=
  match req.joinedServerBefore with
  | some j =>
      if j ≠ 0 then
        match member.joinedTimestamp with
        | none => false
        | some jt => decide (jt ≤ j)
      else true
  | none => true

/-- The custom sub-check in isolation: the predicate's own verdict,
vacuously true when absent. -/
def customCheckPasses (user : User) (req : GiveawayRequirements) : Bool :=
  match req.custom with
  | some f => (f user.id).passed
  | none => true

theorem checkAfterJoined_passed (user : User) (req : GiveawayRequirements) :
    (checkAfterJoined user req).passed = customCheckPasses user req := by
  unfold checkAfterJoined customCheckPasses
  cases h : req.custom with
  | none => rfl
  | some f =>
      by_cases hp : (f user.id).passed
      · simp [hp]
      · simp [hp]

theorem checkAfterAccount_passed (user : User) (member : GuildMember)
    (req : GiveawayRequirements) :
    (checkAfterAccount user member req).passed =
      (joinedCheckPasses member req && customCheckPasses user req) := by
  unfold checkAfterAccount joinedCheckPasses
  cases hj : req.joinedServerBefore with
  | none => simp [checkAfterJoined_passed]
  | some j =>
      by_cases h0 : j = 0
      · simp [h0, checkAfterJoined_passed]
      · cases hjt : member.joinedTimestamp with
        | none => simp [h0]
        | some jt =>
            by_cases hgt : jt > j
            · simp [h0, hgt, show ¬ jt ≤ j from by omega]
            · simp [h0, hgt, checkAfterJoined_passed, show jt ≤ j from by omega]

theorem checkAfterRoles_passed (user : User) (member : GuildMember)
    (req : GiveawayRequirements) :
    (checkAfterRoles user member req).passed =
      (accountCheckPasses user req && joinedCheckPasses member req &&
        customCheckPasses user req) := by
  unfold checkAfterRoles accountCheckPasses
  cases ha : req.accountAgeMin with
  | none => simp [checkAfterAccount_passed]
  | some a =>
      by_cases h0 : a = 0
      · simp [h0, checkAfterAccount_passed]
      · by_cases hgt : user.createdTimestamp > a
        · simp [h0, hgt, show ¬ user.createdTimestamp ≤ a from by omega]
        · simp [h0, hgt, checkAfterAccount_passed,
            show user.createdTimestamp ≤ a from by omega]

theorem checkAfterJoined_fail (user : User) (req : GiveawayRequirements)
    (h : customCheckPasses user req = false) :
    ∃ f, req.custom = some f ∧
      checkAfterJoined user req =
        { passed := false, reason := some (Reason.custom (f user.id).reason) } := by
  obtain ⟨rr, aa, jj, cu⟩ := req
  cases cu with
  | none => exact absurd h (by simp [customCheckPasses])
  | some f =>
      have h2 : (f user.id).passed = false := h
      exact ⟨f, rfl, by simp [checkAfterJoined, h2]⟩

theorem checkAfterAccount_fail (user : User) (member : GuildMember)
    (req : GiveawayRequirements) (h : joinedCheckPasses member req = false) :
    ∃ j, req.joinedServerBefore = some j ∧
      checkAfterAccount user member req =
        { passed := false, reason := some (Reason.joinedBefore j) } := by
  obtain ⟨rr, aa, jj, cu⟩ := req
  cases jj with
  | none => exact absurd h (by simp [joinedCheckPasses])
  | some j =>
      by_cases h0 : j = 0
      · simp [joinedCheckPasses, h0] at h
      · refine ⟨j, rfl, ?_⟩
        cases hjt : member.joinedTimestamp with
        | none => simp [checkAfterAccount, h0, hjt]
        | some jt =>
            have h2 : j < jt := by
              simp [joinedCheckPasses, h0, hjt] at h
              omega
            simp [checkAfterAccount, h0, hjt, h2]

theorem checkAfterAccount_of_joined (user : User) (member : GuildMember)
    (req : GiveawayRequirements) (h : joinedCheckPasses member req = true) :
    checkAfterAccount user member req = checkAfterJoined user req := by
  obtain ⟨rr, aa, jj, cu⟩ := req
  cases jj with
  | none => rfl
  | some j =>
      by_cases h0 : j = 0
      · simp [checkAfterAccount, h0]
      · cases hjt : member.joinedTimestamp with
        | none => simp [joinedCheckPasses, h0, hjt] at h
        | some jt =>
            have h2 : jt ≤ j := by
              have := h
              simp [joinedCheckPasses, h0, hjt] at this
              omega
            simp [checkAfterAccount, h0, hjt, show ¬ jt > j from by omega]

theorem checkAfterRoles_fail (user : User) (member : GuildMember)
    (req : GiveawayRequirements) (h : accountCheckPasses user req = false) :
    ∃ a, req.accountAgeMin = some a ∧
      checkAfterRoles user member req =
        { passed := false, reason := some (Reason.accountAge a) } := by
  obtain ⟨rr, aa, jj, cu⟩ := req
  cases aa with
  | none => exact absurd h (by simp [accountCheckPasses])
  | some a =>
      by_cases h0 : a = 0
      · simp [accountCheckPasses, h0] at h
      · refine ⟨a, rfl, ?_⟩
        have h2 : a < user.createdTimestamp := by
          simp [accountCheckPasses, h0] at h
          omega
        simp [checkAfterRoles, h0, h2]

theorem checkAfterRoles_of_account (user : User) (member : GuildMember)
    (req : GiveawayRequirements) (h : accountCheckPasses user req = true) :
    checkAfterRoles user member req = checkAfterAccount user member req := by
  obtain ⟨rr, aa, jj, cu⟩ := req
  cases aa with
  | none => rfl
  | some a =>
      by_cases h0 : a = 0
      · simp [checkAfterRoles, h0]
      · have h2 : user.createdTimestamp ≤ a := by
          have := h
          simp [accountCheckPasses, h0] at this
          omega
        simp [checkAfterRoles, h0, show ¬ user.createdTimestamp > a from by omega]

theorem checkRequirements_roles_fail (user : User) (member : GuildMember)
    (req : GiveawayRequirements) (h : rolesCheckPasses member req = false) :
    ∃ roles, req.requiredRoles = some roles ∧
      checkRequirements user member (some req) =
        { passed := false, reason := some (Reason.roles roles) } := by
  obtain ⟨rr, aa, jj, cu⟩ := req
  cases rr with
  | none => exact absurd h (by simp [rolesCheckPasses])
  | some roles =>
      have h2 : (roles.all fun roleId => member.roles.contains roleId) = false := h
      refine ⟨roles, rfl, ?_⟩
      simp only [checkRequirements]
      rw [h2]
      simp

theorem checkRequirements_of_roles (user : User) (member : GuildMember)
    (req : GiveawayRequirements) (h : rolesCheckPasses member req = true) :
    checkRequirements user member (some req) = checkAfterRoles user member req := by
  obtain ⟨rr, aa, jj, cu⟩ := req
  cases rr with
  | none => rfl
  | some roles =>
      have h2 : (roles.all fun roleId => member.roles.contains roleId) = true := h
      simp only [checkRequirements]
      rw [h2]
      simp

theorem checkRequirements_passed_eq (user : User) (member : GuildMember)
    (req : GiveawayRequirements) :
    (checkRequirements user member (some req)).passed =
      (rolesCheckPasses member req && accountCheckPasses user req &&
        joinedCheckPasses member req && customCheckPasses user req) := by
  by_cases hr : rolesCheckPasses member req = true
  · rw [checkRequirements_of_roles user member req hr, hr, checkAfterRoles_passed]
    simp [Bool.and_assoc]
  · have hr2 : rolesCheckPasses member req = false := by simpa using hr
    obtain ⟨roles, _, heq⟩ := checkRequirements_roles_fail user member req hr2
    rw [heq, hr2]
    simp

/-- C3: for every entrant and requirement set, `checkRequirements` passes
when the set is absent or every sub-check passes; otherwise the checks are
evaluated in the fixed order roles → account age → membership join date →
custom predicate, the pipeline short-circuits at the first failing check,
and the returned reason is that of the first failing check in this order. -/
theorem checkRequirements_pipeline_spec (user : User) (member : GuildMember)
    (req : GiveawayRequirements) :
    checkRequirements user member none = { passed := true, reason := none } ∧
    (checkRequirements user member (some req)).passed =
      (rolesCheckPasses member req && accountCheckPasses user req &&
        joinedCheckPasses member req && customCheckPasses user req) ∧
    (rolesCheckPasses member req = false →
      ∃ roles, req.requiredRoles = some roles ∧
        checkRequirements user member (some req) =
          { passed := false, reason := some (Reason.roles roles) }) ∧
    (rolesCheckPasses member req = true → accountCheckPasses user req = false →
      ∃ a, req.accountAgeMin = some a ∧
        checkRequirements user member (some req) =
          { passed := false, reason := some (Reason.accountAge a) }) ∧
    (rolesCheckPasses member req = true → accountCheckPasses user req = true →
      joinedCheckPasses member req = false →
      ∃ j, req.joinedServerBefore = some j ∧
        checkRequirements user member (some req) =
          { passed := false, reason := some (Reason.joinedBefore j) }) ∧
    (rolesCheckPasses member req = true → accountCheckPasses user req = true →
      joinedCheckPasses member req = true → customCheckPasses user req = false →
      ∃ f, req.custom = some f ∧
        checkRequirements user member (some req) =
          { passed := false, reason := some (Reason.custom (f user.id).reason) }) := by
  refine ⟨rfl, checkRequirements_passed_eq user member req, ?_, ?_, ?_, ?_⟩
  · exact fun hr => checkRequirements_roles_fail user member req hr
  · intro hr ha
    obtain ⟨a, haa, heq⟩ := checkAfterRoles_fail user member req ha
    exact ⟨a, haa, by rw [checkRequirements_of_roles user member req hr, heq]⟩
  · intro hr ha hj
    obtain ⟨j, hjj, heq⟩ := checkAfterAccount_fail user member req hj
    refine ⟨j, hjj, ?_⟩
    rw [checkRequirements_of_roles user member req hr,
      checkAfterRoles_of_account user member req ha, heq]
  · intro hr ha hj hc
    obtain ⟨f, hcc, heq⟩ := checkAfterJoined_fail user req hc
    refine ⟨f, hcc, ?_⟩
    rw [checkRequirements_of_roles user member req hr,
      checkAfterRoles_of_account user member req ha,
      checkAfterAccount_of_joined user member req hj, heq]

/-- Sample entrant for the requirement-pipeline witnesses. -/
def sampleUser : User := { id := "u1", bot := false, createdTimestamp := 500 }

/-- Sample member for the requirement-pipeline witnesses. -/
def sampleMember : GuildMember := { roles := ["r1"], joinedTimestamp := some 50 }

/-- Sample requirement set whose roles check passes and whose account-age
check fails for `sampleUser`. -/
def sampleReq : GiveawayRequirements :=
  { requiredRoles := some ["r1"], accountAgeMin := some 100,
    joinedServerBefore := none, custom := none }

/-- Witness for `checkRequirements_pipeline_spec`: at a concrete entrant
whose roles check passes and whose account-age check fails, the pipeline
reports the account-age reason. -/
theorem checkRequirements_pipeline_spec_witness :
    checkRequirements sampleUser sampleMember none = { passed := true, reason := none } ∧
    ∃ a, sampleReq.accountAgeMin = some a ∧
      checkRequirements sampleUser sampleMember (some sampleReq) =
        { passed := false, reason := some (Reason.accountAge a) } :=
  ⟨(checkRequirements_pipeline_spec sampleUser sampleMember sampleReq).1,
    (checkRequirements_pipeline_spec sampleUser sampleMember sampleReq).2.2.2.1
      (by decide) (by decide)⟩

/-- Counterexample to C7: the membership-age check is inclusive, not strict.
An entrant whose join timestamp equals the `joinedServerBefore` threshold
(here both `1000`) passes `checkRequirements`, because the source only fails
on `member.joinedTimestamp > requirements.joinedServerBefore`. -/
theorem joined_equal_threshold_passes :
    (checkRequirements { id := "u1", bot := false, createdTimestamp := 0 }
      { roles := [], joinedTimestamp := some 1000 }
      (some { requiredRoles := none, accountAgeMin := none,
              joinedServerBefore := some 1000, custom := none })).passed = true := rfl

/-- C7 (amended): for every requirement set carrying only a nonzero
`joinedServerBefore` threshold `T`, an entrant passes `checkRequirements`
iff their membership-join timestamp is present and is at most `T` —
earlier than or equal to, so a join timestamp equal to `T` passes. -/
theorem joined_threshold_inclusive (user : User) (member : GuildMember)
    (T : Int) (hT : T ≠ 0) :
    ((checkRequirements user member (some
        { requiredRoles := none, accountAgeMin := none,
          joinedServerBefore := some T, custom := none })).passed = true ↔
      ∃ jt, member.joinedTimestamp = some jt ∧ jt ≤ T) := by
  rw [checkRequirements_passed_eq]
  cases hjt : member.joinedTimestamp with
  | none =>
      simp [rolesCheckPasses, accountCheckPasses, customCheckPasses,
        joinedCheckPasses, hT, hjt]
  | some jt =>
      simp [rolesCheckPasses, accountCheckPasses, customCheckPasses,
        joinedCheckPasses, hT, hjt]

/-- Witness for `joined_threshold_inclusive` at threshold `1000` and a
member who joined exactly at `1000`. -/
theorem joined_threshold_inclusive_witness :
    ((1000 : Int) ≠ 0) ∧
    ((checkRequirements sampleUser { roles := [], joinedTimestamp := some 1000 }
        (some { requiredRoles := none, accountAgeMin := none,
                joinedServerBefore := some 1000, custom := none })).passed = true ↔
      ∃ jt, (some (1000 : Int) : Option Int) = some jt ∧ jt ≤ 1000) :=
  ⟨by decide,
    joined_threshold_inclusive sampleUser
      { roles := [], joinedTimestamp := some 1000 } 1000 (by decide)⟩

/-- `GiveawayData` from `src/types/index.ts`: the persisted record.
`messageId` is `null` (`none`) until the announcement is posted. -/
structure GiveawayData where
  giveawayId : String
  messageId : Option String
  channelId : String
  prize : String
  winnerCount : Nat
  endAt : Int
  ended : Bool
  requirements : Option GiveawayRequirements

/-- `GiveawayOptions` from `src/types/index.ts`: the `start`/`edit` input. -/
structure GiveawayOptions where
  channelId : String
  prize : String
  winnerCount : Nat
  duration : Int
  requirements : Option GiveawayRequirements

/-- The manager options that influence the modelled logic, plus the
`Math.random`-driven comparator shuffle of `pickWinners`, abstracted as an
explicit reordering function (ECMAScript guarantees that `Array.prototype.sort`
returns a rearrangement of its input even under an inconsistent comparator,
so theorems constrain it to permutations). -/
structure ManagerConfig where
  botsCanWin : Bool
  shuffle : List String → List String

/-- A fetched channel; only `isTextBased()` is inspected by the manager. -/
structure Channel where
  isTextBased : Bool
deriving DecidableEq

/-- The messaging platform as seen by the manager: `client.channels.fetch`
(an unknown id resolves to `none`) and, for the message referenced by a
record's `messageId`, the users found on its entry reaction
(`message.reactions.cache.get(reaction)?.users.fetch()`; `none` models the
reaction being absent, which the source defaults to an empty entry list). -/
structure Env where
  channels : String → Option Channel
  reactionUsers : Option String → Option (List User)

/-- One observable side effect of a manager operation, in program order:
persistence writes (`adapter.save` / `adapter.edit`), event emissions, and
announcement-message operations. -/
inductive Effect where
  | save (record : GiveawayData)
  | editRecord (id : String) (record : GiveawayData)
  | emitStarted (record : GiveawayData)
  | emitEnded (record : GiveawayData) (winners : List String)
  | emitRerolled (record : GiveawayData) (winners : List String)
  | emitEdited (prior updated : GiveawayData)
  | postMessage (channelId : String)
  | react (messageId : String)
  | editMessage (messageId : Option String)

/-- The manager's mutable state: the adapter's record list (the JSON cache),
plus the armed countdowns (`this.timeouts`) and live reaction collectors
(`this.collectors`), as lists of giveaway ids (one entry per armed
timer/live collector). -/
structure ManagerState where
  store : List GiveawayData
  timeouts : List String
  collectors : List String

/-- `JSONAdapter.get`: `cache.find(g => g.giveawayId === id) ?? null`. -/
def storeGet : List GiveawayData → String → Option GiveawayData
  | [], _ => none
  | g :: gs, i => if g.giveawayId = i then some g else storeGet gs i

/-- `JSONAdapter.save`: replace the first record with the same id, or append. -/
def storeSave : List GiveawayData → GiveawayData → List GiveawayData
  | [], d => [d]
  | g :: gs, d =>
      if g.giveawayId = d.giveawayId then d :: gs else g :: storeSave gs d

/-- `JSONAdapter.delete`: `cache.filter(g => g.giveawayId !== id)`. -/
def storeDelete (s : List GiveawayData) (i : String) : List GiveawayData :=
  s.filter fun g => g.giveawayId ≠ i

/-- `JSONAdapter.edit`: delete the old record, then save the new data. -/
def storeEdit (s : List GiveawayData) (i : String) (d : GiveawayData) :
    List GiveawayData :=
  storeSave (storeDelete s i) d

/-- `Map.delete` on the timeout/collector maps: drop the entry for the id. -/
def mapDelete : List String → String → List String
  | [], _ => []
  | j :: js, i => if j = i then js else j :: mapDelete js i

/-- Number of armed timers / live collectors a given id has. -/
def keyCount (l : List String) (i : String) : Nat :=
  l.countP fun j => decide (j = i)

/-- The channel guard used throughout the manager:
`channel` resolves and `channel.isTextBased()`. -/
def channelPostable (env : Env) (channelId : String) : Bool :=
  match env.channels channelId with
  | none => false
  | some ch => ch.isTextBased

/-- `pickWinners` from `src/GiveawayManager.ts`:
`entries.sort(() => 0.5 - Math.random()).slice(0, count)`, with the
comparator-driven reordering abstracted as `shuffle`. -/
def pickWinners (shuffle : List String → List String)
    (entries : List String) (count : Nat) : List String :=
  (shuffle entries).take count

/-- The entry pool computed by `end`: ids of the users on the entry
reaction, bots removed unless `botsCanWin`, defaulting to `[]` when the
reaction is absent. -/
def entriesOf (env : Env) (cfg : ManagerConfig) (g : GiveawayData) : List String :=
  let users := env.reactionUsers g.messageId
  if !cfg.botsCanWin then
    (users.map fun us => (us.filter fun u => !u.bot).map User.id).getD []
  else
    (users.map fun us => us.map User.id).getD []

/-- `end(giveawayId, rerolled)` from `src/GiveawayManager.ts`.  Returns the
state after the call and the ordered effect trace.  Source order: fetch the
record (silent return when absent or already ended), fetch the channel
(silent return when unresolvable or not text-based), fetch entrants, pick
winners, edit the announcement, set `ended = true`, clear the timeout and
collector, emit `giveawayEnded`/`giveawayRerolled`, and only then
`adapter.save`. -/
def endGiveaway (env : Env) (cfg : ManagerConfig) (st : ManagerState)
    (giveawayId : String) (rerolled : Bool) : ManagerState × List Effect :=
  match storeGet st.store giveawayId with
  | none => (st, [])
  | some giveaway =>
      if giveaway.ended then (st, [])
      else
        match env.channels giveaway.channelId with
        | none => (st, [])
        | some ch =>
            if !ch.isTextBased then (st, [])
            else
              let winners :=
                pickWinners cfg.shuffle (entriesOf env cfg giveaway)
                  giveaway.winnerCount
              let g : GiveawayData := { giveaway with ended := true }
              ({ store := storeSave st.store g
                 timeouts := mapDelete st.timeouts giveawayId
                 collectors := mapDelete st.collectors giveawayId },
               [Effect.editMessage giveaway.messageId,
                if rerolled then Effect.emitRerolled g winners
                else Effect.emitEnded g winners,
                Effect.save g])

/-- `setTimeoutForGiveaway` from `src/GiveawayManager.ts`: a non-positive
remainder triggers an immediate `end` (run to completion here, matching the
microtask order in which the adapter read resolves before any network
fetch); otherwise one countdown for the id is armed. -/
def setTimeoutForGiveaway (env : Env) (cfg : ManagerConfig) (now : Int)
    (st : ManagerState) (g : GiveawayData) : ManagerState × List Effect :=
  if g.endAt - now ≤ 0 then endGiveaway env cfg st g.giveawayId false
  else ({ st with timeouts := g.giveawayId :: st.timeouts }, [])

/-- `setReactionCollector` from `src/GiveawayManager.ts`, reduced to its
state footprint: one collector is registered for the id.  When the channel
cannot be resolved the source throws inside the (never-awaited) async
method, so no collector is registered and the caller is not interrupted. -/
def setReactionCollector (env : Env) (st : ManagerState) (g : GiveawayData) :
    ManagerState :=
  if channelPostable env g.channelId then
    { st with collectors := g.giveawayId :: st.collectors }
  else st

/-- `start(options)` from `src/GiveawayManager.ts`.  `now` models
`Date.now()`, `freshId` the `generateId()` draw, `newMessageId` the id of
the posted announcement.  Source order: build the record with
`messageId: null`, fetch the channel (throw when unresolvable or not
text-based — before anything is persisted), post the announcement, react,
set `messageId`, `adapter.save`, arm the countdown, emit `giveawayStarted`,
register the collector, return the record. -/
def startGiveaway (env : Env) (cfg : ManagerConfig) (st : ManagerState)
    (options : GiveawayOptions) (now : Int) (freshId newMessageId : String) :
    (ManagerState × List Effect) × Except String GiveawayData :=
  let endAt := now + options.duration
  let giveaway : GiveawayData :=
    { giveawayId := freshId, channelId := options.channelId,
      prize := options.prize, winnerCount := options.winnerCount,
      endAt := endAt, messageId := none, ended := false,
      requirements := options.requirements }
  match env.channels options.channelId with
  | none => ((st, []), Except.error "Channel not found or not text-based")
  | some ch =>
      if !ch.isTextBased then
        ((st, []), Except.error "Channel not found or not text-based")
      else
        let g : GiveawayData := { giveaway with messageId := some newMessageId }
        let st1 : ManagerState := { st with store := storeSave st.store g }
        let timed := setTimeoutForGiveaway env cfg now st1 g
        let st3 := setReactionCollector env timed.1 g
        ((st3,
          [Effect.postMessage options.channelId, Effect.react newMessageId,
           Effect.save g] ++ timed.2 ++ [Effect.emitStarted g]),
         Except.ok g)

/-- `edit(giveawayId, options)` from `src/GiveawayManager.ts`.  Source
order: fetch the record (throw when absent or already ended), fetch the
channel (silent `return` when unresolvable or not text-based), edit the
announcement, `adapter.edit` with the merged record (prize, winnerCount and
requirements from the options; id, channel, message and `endAt` from the
stored record; `ended: false`), then emit `giveawayEdited`. -/
def editGiveaway (env : Env) (st : ManagerState) (giveawayId : String)
    (options : GiveawayOptions) :
    (ManagerState × List Effect) × Except String Unit :=
  match storeGet st.store giveawayId with
  | none => ((st, []), Except.error "No giveaway found or already ended!")
  | some giveaway =>
      if giveaway.ended then
        ((st, []), Except.error "No giveaway found or already ended!")
      else
        match env.channels giveaway.channelId with
        | none => ((st, []), Except.ok ())
        | some ch =>
            if !ch.isTextBased then ((st, []), Except.ok ())
            else
              let updated : GiveawayData :=
                { giveawayId := giveaway.giveawayId,
                  channelId := giveaway.channelId,
                  messageId := giveaway.messageId, prize := options.prize,
                  winnerCount := options.winnerCount, endAt := giveaway.endAt,
                  ended := false, requirements := options.requirements }
              (({ st with store := storeEdit st.store giveawayId updated },
                [Effect.editMessage giveaway.messageId,
                 Effect.editRecord giveawayId updated,
                 Effect.emitEdited giveaway updated]),
               Except.ok ())

/-- The loop body of `restoreTimeouts`: for every non-ended record, arm its
countdown (or finalize immediately) and resume entry collection. -/
def restoreLoop (env : Env) (cfg : ManagerConfig) (now : Int) :
    List GiveawayData → ManagerState → ManagerState × List Effect
  | [], st => (st, [])
  | g :: gs, st =>
      if g.ended then restoreLoop env cfg now gs st
      else
        let timed := setTimeoutForGiveaway env cfg now st g
        let st2 := setReactionCollector env timed.1 g
        let rest := restoreLoop env cfg now gs st2
        (rest.1, timed.2 ++ rest.2)

/-- `restoreTimeouts` from `src/GiveawayManager.ts`: iterate
`adapter.getAll()` (the current store). -/
def restoreTimeouts (env : Env) (cfg : ManagerConfig) (now : Int)
    (st : ManagerState) : ManagerState × List Effect :=
  restoreLoop env cfg now st.store st

/-- Recognizes a persistence write (`adapter.save`) in a trace. -/
def isSaveEffect : Effect → Bool
  | Effect.save _ => true
  | _ => false

/-- Recognizes a `giveawayEnded`/`giveawayRerolled` emission in a trace. -/
def isEndEventEffect : Effect → Bool
  | Effect.emitEnded _ _ => true
  | Effect.emitRerolled _ _ => true
  | _ => false

/-- Recognizes an announcement post in a trace. -/
def isPostMessageEffect : Effect → Bool
  | Effect.postMessage _ => true
  | _ => false

theorem storeGet_id {s : List GiveawayData} {i : String} {g : GiveawayData}
    (h : storeGet s i = some g) : g.giveawayId = i := by
  induction s with
  | nil => simp [storeGet] at h
  | cons a as ih =>
      unfold storeGet at h
      by_cases ha : a.giveawayId = i
      · rw [if_pos ha] at h
        cases h
        exact ha
      · rw [if_neg ha] at h
        exact ih h

theorem storeGet_storeSave_self (s : List GiveawayData) (d : GiveawayData) :
    storeGet (storeSave s d) d.giveawayId = some d := by
  induction s with
  | nil => simp [storeSave, storeGet]
  | cons a as ih =>
      by_cases ha : a.giveawayId = d.giveawayId
      · simp [storeSave, storeGet, ha]
      · simp [storeSave, storeGet, ha, ih]

theorem storeGet_storeSave_ne (s : List GiveawayData) (d : GiveawayData)
    (i : String) (h : i ≠ d.giveawayId) :
    storeGet (storeSave s d) i = storeGet s i := by
  have hdi : ¬ d.giveawayId = i := fun hh => h hh.symm
  induction s with
  | nil => simp [storeSave, storeGet, hdi]
  | cons a as ih =>
      by_cases ha : a.giveawayId = d.giveawayId
      · have hai : ¬ a.giveawayId = i := by rw [ha]; exact hdi
        simp [storeSave, ha, storeGet, hai, hdi]
      · by_cases hai : a.giveawayId = i
        · simp [storeSave, ha, storeGet, hai, h]
        · simp [storeSave, ha, storeGet, hai, ih]

theorem storeGet_of_mem_nodup {s : List GiveawayData} {g : GiveawayData}
    (hmem : g ∈ s) (hnd : (s.map GiveawayData.giveawayId).Nodup) :
    storeGet s g.giveawayId = some g := by
  induction s with
  | nil => simp at hmem
  | cons a as ih =>
      simp only [List.map_cons, List.nodup_cons] at hnd
      rcases List.mem_cons.mp hmem with h | h
      · subst h; simp [storeGet]
      · have hne : a.giveawayId ≠ g.giveawayId := by
          intro he
          apply hnd.1
          rw [he]
          exact List.mem_map_of_mem _ h
        simp [storeGet, hne, ih h hnd.2]

theorem keyCount_cons (l : List String) (a i : String) :
    keyCount (a :: l) i = keyCount l i + (if a = i then 1 else 0) := by
  simp [keyCount, List.countP_cons]

theorem keyCount_mapDelete_le (l : List String) (j i : String) :
    keyCount (mapDelete l j) i ≤ keyCount l i := by
  induction l with
  | nil => exact Nat.le_refl _
  | cons a as ih =>
      unfold mapDelete
      by_cases ha : a = j
      · rw [if_pos ha, keyCount_cons]
        exact Nat.le_add_right _ _
      · rw [if_neg ha, keyCount_cons, keyCount_cons]
        exact Nat.add_le_add_right ih _

theorem keyCount_mapDelete_ne (l : List String) (j i : String) (h : i ≠ j) :
    keyCount (mapDelete l j) i = keyCount l i := by
  induction l with
  | nil => rfl
  | cons a as ih =>
      unfold mapDelete
      by_cases ha : a = j
      · rw [if_pos ha, keyCount_cons]
        have hai : ¬ a = i := by rw [ha]; exact fun hh => h hh.symm
        rw [if_neg hai]
        exact (Nat.add_zero _).symm
      · rw [if_neg ha, keyCount_cons, keyCount_cons, ih]

theorem endGiveaway_noop_absent (env : Env) (cfg : ManagerConfig)
    (st : ManagerState) (i : String) (r : Bool)
    (h : storeGet st.store i = none) :
    endGiveaway env cfg st i r = (st, []) := by
  unfold endGiveaway
  rw [h]

theorem endGiveaway_noop_ended (env : Env) (cfg : ManagerConfig)
    (st : ManagerState) (i : String) (r : Bool) (g : GiveawayData)
    (hg : storeGet st.store i = some g) (he : g.ended = true) :
    endGiveaway env cfg st i r = (st, []) := by
  unfold endGiveaway
  rw [hg]
  simp [he]

theorem endGiveaway_finalizes (env : Env) (cfg : ManagerConfig)
    (st : ManagerState) (i : String) (r : Bool) (g : GiveawayData)
    (hg : storeGet st.store i = some g) (hne : g.ended = false)
    (hch : channelPostable env g.channelId = true) :
    endGiveaway env cfg st i r =
      ({ store := storeSave st.store { g with ended := true }
         timeouts := mapDelete st.timeouts i
         collectors := mapDelete st.collectors i },
       [Effect.editMessage g.messageId,
        if r then
          Effect.emitRerolled { g with ended := true }
            (pickWinners cfg.shuffle (entriesOf env cfg g) g.winnerCount)
        else
          Effect.emitEnded { g with ended := true }
            (pickWinners cfg.shuffle (entriesOf env cfg g) g.winnerCount),
        Effect.save { g with ended := true }]) := by
  unfold endGiveaway
  rw [hg]
  unfold channelPostable at hch
  cases hc : env.channels g.channelId with
  | none => rw [hc] at hch; simp at hch
  | some ch =>
      rw [hc] at hch
      have hch2 : ch.isTextBased = true := hch
      simp [hne, hc, hch2]

theorem endGiveaway_frame (env : Env) (cfg : ManagerConfig)
    (st : ManagerState) (j : String) (r : Bool) (i : String) (hij : i ≠ j) :
    keyCount (endGiveaway env cfg st j r).1.timeouts i = keyCount st.timeouts i ∧
    keyCount (endGiveaway env cfg st j r).1.collectors i = keyCount st.collectors i ∧
    storeGet (endGiveaway env cfg st j r).1.store i = storeGet st.store i := by
  unfold endGiveaway
  cases hg : storeGet st.store j with
  | none => exact ⟨rfl, rfl, rfl⟩
  | some g =>
      by_cases he : g.ended
      · simp [he]
      · cases hc : env.channels g.channelId with
        | none => simp [he, hc]
        | some ch =>
            by_cases ht : ch.isTextBased
            · have hid : g.giveawayId = j := storeGet_id hg
              have hni : i ≠ g.giveawayId := by rw [hid]; exact hij
              refine ⟨?_, ?_, ?_⟩ <;>
                simp [he, hc, ht, keyCount_mapDelete_ne _ _ _ hij,
                  storeGet_storeSave_ne st.store { g with ended := true } i hni]
            · simp [he, hc, ht]

/-- Environment in which every channel resolves to a text channel and no
message carries reaction users. -/
def envOk : Env :=
  { channels := fun _ => some { isTextBased := true },
    reactionUsers := fun _ => some [] }

/-- Environment in which no channel resolves. -/
def envDown : Env :=
  { channels := fun _ => none, reactionUsers := fun _ => none }

/-- Concrete manager configuration with the identity reordering. -/
def cfgId : ManagerConfig := { botsCanWin := false, shuffle := fun l => l }

/-- A live (non-ended) stored record. -/
def gLive : GiveawayData :=
  { giveawayId := "g1", messageId := some "m1", channelId := "c1",
    prize := "Nitro", winnerCount := 1, endAt := 1000, ended := false,
    requirements := none }

/-- An already-ended stored record. -/
def gDone : GiveawayData :=
  { giveawayId := "g2", messageId := some "m2", channelId := "c1",
    prize := "Prize", winnerCount := 1, endAt := 900, ended := true,
    requirements := none }

/-- State holding the live record with its timer and collector armed. -/
def stLive : ManagerState :=
  { store := [gLive], timeouts := ["g1"], collectors := ["g1"] }

/-- The empty manager state. -/
def stEmpty : ManagerState := { store := [], timeouts := [], collectors := [] }

/-- Concrete start/edit options. -/
def optsNitro : GiveawayOptions :=
  { channelId := "c1", prize := "Nitro", winnerCount := 1, duration := 500,
    requirements := none }

/-- C1: calling end a second time after a completed first call is a no-op
with no further observable effect: the state is unchanged and no event,
persistence write or announcement edit happens, because the stored record's
ended flag is already true after the first call. -/
theorem end_idempotent (env : Env) (cfg : ManagerConfig) (st : ManagerState)
    (i : String) (r r2 : Bool) (g : GiveawayData)
    (hg : storeGet st.store i = some g) (hne : g.ended = false)
    (hch : channelPostable env g.channelId = true) :
    endGiveaway env cfg (endGiveaway env cfg st i r).1 i r2 =
      ((endGiveaway env cfg st i r).1, []) := by
  have h1 := endGiveaway_finalizes env cfg st i r g hg hne hch
  have hid : g.giveawayId = i := storeGet_id hg
  have h2 : storeGet (endGiveaway env cfg st i r).1.store i =
      some { g with ended := true } := by
    rw [h1]
    simpa [hid] using storeGet_storeSave_self st.store { g with ended := true }
  exact endGiveaway_noop_ended env cfg _ i r2 _ h2 rfl

/-- Witness for `end_idempotent` at the concrete live giveaway. -/
theorem end_idempotent_witness :
    endGiveaway envOk cfgId (endGiveaway envOk cfgId stLive "g1" false).1 "g1" false =
      ((endGiveaway envOk cfgId stLive "g1" false).1, []) :=
  end_idempotent envOk cfgId stLive "g1" false false gLive rfl rfl rfl

/-- C10: when the record exists with ended = false but its channel cannot be
resolved (or is not text-based), end returns silently: state unchanged (the
record stays un-ended, timer and collector stay armed), no event, no
persistence write. -/
theorem end_channel_unavailable (env : Env) (cfg : ManagerConfig)
    (st : ManagerState) (i : String) (r : Bool) (g : GiveawayData)
    (hg : storeGet st.store i = some g) (hne : g.ended = false)
    (hch : channelPostable env g.channelId = false) :
    endGiveaway env cfg st i r = (st, []) := by
  unfold endGiveaway
  rw [hg]
  unfold channelPostable at hch
  cases hc : env.channels g.channelId with
  | none => simp [hne, hc]
  | some ch =>
      rw [hc] at hch
      have hch2 : ch.isTextBased = false := hch
      simp [hne, hc, hch2]

/-- Witness for `end_channel_unavailable`: the live giveaway with an
unresolvable channel. -/
theorem end_channel_unavailable_witness :
    endGiveaway envDown cfgId stLive "g1" false = (stLive, []) :=
  end_channel_unavailable envDown cfgId stLive "g1" false gLive rfl rfl rfl

/-- Counterexample to C5: in a concrete finalizing execution of end, the
giveawayEnded event (trace index 1) is published BEFORE the persistence
write (trace index 2) — the source emits first and calls adapter.save
afterwards, contradicting persisted-before-published. -/
theorem end_saves_after_event_cex :
    ((endGiveaway envOk cfgId stLive "g1" false).2.findIdx isEndEventEffect = 1) ∧
    ((endGiveaway envOk cfgId stLive "g1" false).2.findIdx isSaveEffect = 2) :=
  ⟨rfl, rfl⟩

/-- C5 (amended): in every finalizing execution of end, exactly one
persistence write and exactly one giveawayEnded/giveawayRerolled event
occur, the persisted record has ended = true, and the event is published
strictly BEFORE the persistence write (the source saves only after
emitting). -/
theorem end_event_then_save (env : Env) (cfg : ManagerConfig)
    (st : ManagerState) (i : String) (r : Bool) (g : GiveawayData)
    (hg : storeGet st.store i = some g) (hne : g.ended = false)
    (hch : channelPostable env g.channelId = true) :
    (endGiveaway env cfg st i r).2.filter isSaveEffect =
        [Effect.save { g with ended := true }] ∧
    ((endGiveaway env cfg st i r).2.filter isEndEventEffect).length = 1 ∧
    (endGiveaway env cfg st i r).2.findIdx isEndEventEffect <
      (endGiveaway env cfg st i r).2.findIdx isSaveEffect := by
  rw [endGiveaway_finalizes env cfg st i r g hg hne hch]
  cases r <;>
    simp [isSaveEffect, isEndEventEffect, List.filter, List.findIdx_cons]

/-- Witness for `end_event_then_save` at the concrete live giveaway,
invoked as a reroll. -/
theorem end_event_then_save_witness :
    (endGiveaway envOk cfgId stLive "g1" true).2.filter isSaveEffect =
        [Effect.save { gLive with ended := true }] ∧
    ((endGiveaway envOk cfgId stLive "g1" true).2.filter isEndEventEffect).length = 1 ∧
    (endGiveaway envOk cfgId stLive "g1" true).2.findIdx isEndEventEffect <
      (endGiveaway envOk cfgId stLive "g1" true).2.findIdx isSaveEffect :=
  end_event_then_save envOk cfgId stLive "g1" true gLive rfl rfl rfl

/-- C4: for every pool and requested count, pickWinners returns exactly
min(count, pool size) elements, all drawn from the pool, with no
duplicates when the pool has none; it returns the empty sequence on an
empty pool and a permutation of the full pool when the count is at least
the pool size.  The comparator-driven reordering is constrained to
permutations, which ECMAScript guarantees for Array.prototype.sort. -/
theorem pickWinners_spec (shuffle : List String → List String)
    (entries : List String) (count : Nat)
    (hperm : (shuffle entries).Perm entries) (hnd : entries.Nodup) :
    (pickWinners shuffle entries count).length = min count entries.length ∧
    (∀ x ∈ pickWinners shuffle entries count, x ∈ entries) ∧
    (pickWinners shuffle entries count).Nodup ∧
    (entries = [] → pickWinners shuffle entries count = []) ∧
    (entries.length ≤ count → (pickWinners shuffle entries count).Perm entries) := by
  refine ⟨?_, ?_, ?_, ?_, ?_⟩
  · simp [pickWinners, hperm.length_eq]
  · intro x hx
    exact hperm.subset (List.mem_of_mem_take hx)
  · exact List.Nodup.sublist (List.take_sublist _ _) (hperm.nodup_iff.mpr hnd)
  · intro h
    subst h
    simp [pickWinners, hperm.eq_nil]
  · intro h
    have hlen : (shuffle entries).length ≤ count := by
      rw [hperm.length_eq]; exact h
    unfold pickWinners
    rw [List.take_of_length_le hlen]
    exact hperm

/-- Witness for `pickWinners_spec`: the identity reordering on a two-element
pool with an oversized request. -/
theorem pickWinners_spec_witness :
    (pickWinners (fun l => l) ["a", "b"] 3).length =
        min 3 (["a", "b"] : List String).length ∧
    (∀ x ∈ pickWinners (fun l => l) ["a", "b"] 3, x ∈ (["a", "b"] : List String)) ∧
    (pickWinners (fun l => l) ["a", "b"] 3).Nodup ∧
    ((["a", "b"] : List String) = [] → pickWinners (fun l => l) ["a", "b"] 3 = []) ∧
    ((["a", "b"] : List String).length ≤ 3 →
      (pickWinners (fun l => l) ["a", "b"] 3).Perm ["a", "b"]) :=
  pickWinners_spec (fun l => l) ["a", "b"] 3 (List.Perm.refl _) (by decide)

/-- C8: when the target channel cannot be resolved or is not text-based,
start fails with the ChannelUnavailable error and performs no effect at
all: in particular, no record (partial or otherwise) is persisted and the
state is unchanged. -/
theorem start_channel_unavailable (env : Env) (cfg : ManagerConfig)
    (st : ManagerState) (opts : GiveawayOptions) (now : Int)
    (fid mid : String)
    (hch : channelPostable env opts.channelId = false) :
    startGiveaway env cfg st opts now fid mid =
      ((st, []), Except.error "Channel not found or not text-based") := by
  unfold startGiveaway
  unfold channelPostable at hch
  cases hc : env.channels opts.channelId with
  | none => rfl
  | some ch =>
      rw [hc] at hch
      have hch2 : ch.isTextBased = false := hch
      simp [hc, hch2]

/-- Witness for `start_channel_unavailable`: start against the environment
where no channel resolves. -/
theorem start_channel_unavailable_witness :
    startGiveaway envDown cfgId stEmpty optsNitro 100 "id1" "m1" =
      ((stEmpty, []), Except.error "Channel not found or not text-based") :=
  start_channel_unavailable envDown cfgId stEmpty optsNitro 100 "id1" "m1" rfl

/-- The record a successful `start` hands to `adapter.save`: the freshly
built giveaway with the posted announcement's message id filled in. -/
def startedRecord (opts : GiveawayOptions) (now : Int) (fid mid : String) :
    GiveawayData :=
  { giveawayId := fid, messageId := some mid, channelId := opts.channelId,
    prize := opts.prize, winnerCount := opts.winnerCount,
    endAt := now + opts.duration, ended := false,
    requirements := opts.requirements }

/-- The merged record `edit` hands to `adapter.edit`: prize, winnerCount
and requirements from the new options, everything else from the stored
record, `ended` pinned to `false`. -/
def mergedRecord (g : GiveawayData) (opts : GiveawayOptions) : GiveawayData :=
  { giveawayId := g.giveawayId, channelId := g.channelId,
    messageId := g.messageId, prize := opts.prize,
    winnerCount := opts.winnerCount, endAt := g.endAt, ended := false,
    requirements := opts.requirements }

/-- Counterexample to C6: a concrete successful start performs exactly one
persistence write, not two, and that single write already carries the
concrete message id — the record is never persisted with messageRef =
null, because the source saves only after the announcement succeeded. -/
theorem start_single_save_cex :
    (startGiveaway envOk cfgId stEmpty optsNitro 100 "id1" "m1").1.2.filter
        isSaveEffect =
      [Effect.save (startedRecord optsNitro 100 "id1" "m1")] ∧
    (startedRecord optsNitro 100 "id1" "m1").messageId = some "m1" :=
  ⟨rfl, rfl⟩

/-- C6 (amended): for every successful start with positive duration the new
record is persisted exactly once, after the announcement is posted, and the
persisted record already carries the concrete message reference — there is
no earlier write with messageRef = null. -/
theorem start_persists_once (env : Env) (cfg : ManagerConfig)
    (st : ManagerState) (opts : GiveawayOptions) (now : Int)
    (fid mid : String)
    (hch : channelPostable env opts.channelId = true)
    (hd : 0 < opts.duration) :
    (startGiveaway env cfg st opts now fid mid).1.2.filter isSaveEffect =
      [Effect.save (startedRecord opts now fid mid)] ∧
    (startedRecord opts now fid mid).messageId = some mid ∧
    (startGiveaway env cfg st opts now fid mid).1.2.findIdx isPostMessageEffect <
      (startGiveaway env cfg st opts now fid mid).1.2.findIdx isSaveEffect := by
  unfold startGiveaway
  unfold channelPostable at hch
  cases hc : env.channels opts.channelId with
  | none => rw [hc] at hch; simp at hch
  | some ch =>
      rw [hc] at hch
      have hch2 : ch.isTextBased = true := hch
      have hd2 : ¬ (now + opts.duration - now ≤ 0) := by omega
      have hd3 : ¬ opts.duration ≤ 0 := by omega
      refine ⟨?_, rfl, ?_⟩ <;>
        simp [hc, hch2, setTimeoutForGiveaway, startedRecord, hd2, hd3,
          isSaveEffect, isPostMessageEffect, List.filter, List.findIdx_cons]

/-- Witness for `start_persists_once` at a concrete successful start. -/
theorem start_persists_once_witness :
    (startGiveaway envOk cfgId stEmpty optsNitro 100 "id2" "m2").1.2.filter
        isSaveEffect =
      [Effect.save (startedRecord optsNitro 100 "id2" "m2")] ∧
    (startedRecord optsNitro 100 "id2" "m2").messageId = some "m2" ∧
    (startGiveaway envOk cfgId stEmpty optsNitro 100 "id2" "m2").1.2.findIdx
        isPostMessageEffect <
      (startGiveaway envOk cfgId stEmpty optsNitro 100 "id2" "m2").1.2.findIdx
        isSaveEffect :=
  start_persists_once envOk cfgId stEmpty optsNitro 100 "id2" "m2" rfl (by decide)

theorem editGiveaway_succeeds (env : Env) (st : ManagerState) (i : String)
    (opts : GiveawayOptions) (g : GiveawayData)
    (hg : storeGet st.store i = some g) (hne : g.ended = false)
    (hch : channelPostable env g.channelId = true) :
    editGiveaway env st i opts =
      (({ st with store := storeEdit st.store i (mergedRecord g opts) },
        [Effect.editMessage g.messageId,
         Effect.editRecord i (mergedRecord g opts),
         Effect.emitEdited g (mergedRecord g opts)]),
       Except.ok ()) := by
  unfold editGiveaway
  rw [hg]
  unfold channelPostable at hch
  cases hc : env.channels g.channelId with
  | none => rw [hc] at hch; simp at hch
  | some ch =>
      rw [hc] at hch
      have hch2 : ch.isTextBased = true := hch
      simp [hne, hc, hch2, mergedRecord]

/-- C9: edit throws NotFound when the record is absent or already ended;
for an existing non-ended record (with its channel available) the persisted
merged record takes prize, winnerCount and requirements from the new
options while giveawayId, channelId, messageId, endAt and ended stay
unchanged, and the store afterwards holds exactly that merged record under
the giveaway's id. -/
theorem edit_spec (env : Env) (st : ManagerState) (i : String)
    (opts : GiveawayOptions) :
    (storeGet st.store i = none →
      editGiveaway env st i opts =
        ((st, []), Except.error "No giveaway found or already ended!")) ∧
    (∀ g, storeGet st.store i = some g → g.ended = true →
      editGiveaway env st i opts =
        ((st, []), Except.error "No giveaway found or already ended!")) ∧
    (∀ g, storeGet st.store i = some g → g.ended = false →
      channelPostable env g.channelId = true →
      ∃ m : GiveawayData,
        (editGiveaway env st i opts).2 = Except.ok () ∧
        (editGiveaway env st i opts).1.2 =
          [Effect.editMessage g.messageId, Effect.editRecord i m,
           Effect.emitEdited g m] ∧
        storeGet (editGiveaway env st i opts).1.1.store i = some m ∧
        m.prize = opts.prize ∧ m.winnerCount = opts.winnerCount ∧
        m.requirements = opts.requirements ∧ m.giveawayId = g.giveawayId ∧
        m.channelId = g.channelId ∧ m.messageId = g.messageId ∧
        m.endAt = g.endAt ∧ m.ended = false) := by
  refine ⟨?_, ?_, ?_⟩
  · intro h
    unfold editGiveaway
    rw [h]
  · intro g hg he
    unfold editGiveaway
    rw [hg]
    simp [he]
  · intro g hg hne hch
    have hid : g.giveawayId = i := storeGet_id hg
    have heq := editGiveaway_succeeds env st i opts g hg hne hch
    refine ⟨mergedRecord g opts,
      ?_, ?_, ?_, rfl, rfl, rfl, rfl, rfl, rfl, rfl, rfl⟩
    · rw [heq]
    · rw [heq]
    · rw [heq]
      unfold storeEdit
      simpa [mergedRecord, hid] using
        storeGet_storeSave_self (storeDelete st.store i) (mergedRecord g opts)

/-- A state holding only the already-ended record. -/
def stDone : ManagerState := { store := [gDone], timeouts := [], collectors := [] }

/-- Witness for `edit_spec`: all three branches at concrete inputs — a
missing id, an already-ended record, and a live record that is merged. -/
theorem edit_spec_witness :
    (editGiveaway envOk stEmpty "nope" optsNitro =
      ((stEmpty, []), Except.error "No giveaway found or already ended!")) ∧
    (editGiveaway envOk stDone "g2" optsNitro =
      ((stDone, []), Except.error "No giveaway found or already ended!")) ∧
    (∃ m : GiveawayData,
      (editGiveaway envOk stLive "g1" optsNitro).2 = Except.ok () ∧
      (editGiveaway envOk stLive "g1" optsNitro).1.2 =
        [Effect.editMessage (some "m1"), Effect.editRecord "g1" m,
         Effect.emitEdited gLive m] ∧
      storeGet (editGiveaway envOk stLive "g1" optsNitro).1.1.store "g1" = some m ∧
      m.prize = "Nitro" ∧ m.winnerCount = 1 ∧
      m.requirements = none ∧ m.giveawayId = "g1" ∧
      m.channelId = "c1" ∧ m.messageId = some "m1" ∧
      m.endAt = 1000 ∧ m.ended = false) :=
  ⟨(edit_spec envOk stEmpty "nope" optsNitro).1 rfl,
   (edit_spec envOk stDone "g2" optsNitro).2.1 gDone rfl rfl,
   (edit_spec envOk stLive "g1" optsNitro).2.2 gLive rfl rfl rfl⟩

theorem keyCount_mapDelete_zero (l : List String) (j i : String)
    (h : keyCount l i = 0) : keyCount (mapDelete l j) i = 0 :=
  Nat.le_zero.mp (h ▸ keyCount_mapDelete_le l j i)

theorem keyCount_cons_ne_id (l : List String) (a i : String) (h : i ≠ a) :
    keyCount (a :: l) i = keyCount l i := by
  rw [keyCount_cons, if_neg (fun hh => h hh.symm)]
  exact Nat.add_zero _

theorem setTimeoutForGiveaway_frame (env : Env) (cfg : ManagerConfig)
    (now : Int) (st : ManagerState) (g : GiveawayData) (i : String)
    (hig : i ≠ g.giveawayId) :
    keyCount (setTimeoutForGiveaway env cfg now st g).1.timeouts i =
        keyCount st.timeouts i ∧
    keyCount (setTimeoutForGiveaway env cfg now st g).1.collectors i =
        keyCount st.collectors i ∧
    storeGet (setTimeoutForGiveaway env cfg now st g).1.store i =
        storeGet st.store i := by
  unfold setTimeoutForGiveaway
  by_cases h : g.endAt - now ≤ 0
  · rw [if_pos h]
    exact endGiveaway_frame env cfg st g.giveawayId false i hig
  · rw [if_neg h]
    exact ⟨keyCount_cons_ne_id _ _ _ hig, rfl, rfl⟩

theorem setReactionCollector_frame (env : Env) (st : ManagerState)
    (g : GiveawayData) (i : String) (hig : i ≠ g.giveawayId) :
    keyCount (setReactionCollector env st g).timeouts i =
        keyCount st.timeouts i ∧
    keyCount (setReactionCollector env st g).collectors i =
        keyCount st.collectors i ∧
    storeGet (setReactionCollector env st g).store i = storeGet st.store i := by
  unfold setReactionCollector
  by_cases h : channelPostable env g.channelId = true
  · rw [if_pos h]
    exact ⟨rfl, keyCount_cons_ne_id _ _ _ hig, rfl⟩
  · rw [if_neg h]
    exact ⟨rfl, rfl, rfl⟩

theorem restoreLoop_cons (env : Env) (cfg : ManagerConfig) (now : Int)
    (g : GiveawayData) (gs : List GiveawayData) (st : ManagerState) :
    restoreLoop env cfg now (g :: gs) st =
      if g.ended then restoreLoop env cfg now gs st
      else
        ((restoreLoop env cfg now gs
            (setReactionCollector env (setTimeoutForGiveaway env cfg now st g).1 g)).1,
         (setTimeoutForGiveaway env cfg now st g).2 ++
           (restoreLoop env cfg now gs
             (setReactionCollector env (setTimeoutForGiveaway env cfg now st g).1 g)).2) := rfl

theorem restoreLoop_cons_ended (env : Env) (cfg : ManagerConfig) (now : Int)
    (g : GiveawayData) (gs : List GiveawayData) (st : ManagerState)
    (h : g.ended = true) :
    restoreLoop env cfg now (g :: gs) st = restoreLoop env cfg now gs st := by
  rw [restoreLoop_cons, if_pos h]

theorem restoreLoop_cons_live (env : Env) (cfg : ManagerConfig) (now : Int)
    (g : GiveawayData) (gs : List GiveawayData) (st : ManagerState)
    (h : g.ended = false) :
    restoreLoop env cfg now (g :: gs) st =
      ((restoreLoop env cfg now gs
          (setReactionCollector env (setTimeoutForGiveaway env cfg now st g).1 g)).1,
       (setTimeoutForGiveaway env cfg now st g).2 ++
         (restoreLoop env cfg now gs
           (setReactionCollector env (setTimeoutForGiveaway env cfg now st g).1 g)).2) := by
  rw [restoreLoop_cons, if_neg (by simp [h])]

theorem restoreLoop_frame (env : Env) (cfg : ManagerConfig) (now : Int)
    (gs : List GiveawayData) (st : ManagerState) (i : String)
    (hi : i ∉ gs.map GiveawayData.giveawayId) :
    keyCount (restoreLoop env cfg now gs st).1.timeouts i =
        keyCount st.timeouts i ∧
    keyCount (restoreLoop env cfg now gs st).1.collectors i =
        keyCount st.collectors i ∧
    storeGet (restoreLoop env cfg now gs st).1.store i = storeGet st.store i := by
  induction gs generalizing st with
  | nil => exact ⟨rfl, rfl, rfl⟩
  | cons g gs ih =>
      have hig : i ≠ g.giveawayId := by
        intro he
        exact hi (by rw [he]; exact List.mem_map_of_mem _ (List.mem_cons_self g gs))
      have hi2 : i ∉ gs.map GiveawayData.giveawayId :=
        fun hm => hi (List.mem_cons_of_mem _ hm)
      by_cases hge : g.ended = true
      · rw [restoreLoop_cons_ended env cfg now g gs st hge]
        exact ih st hi2
      · have hge2 : g.ended = false := by simpa using hge
        rw [restoreLoop_cons_live env cfg now g gs st hge2]
        obtain ⟨t1, c1, s1⟩ := setTimeoutForGiveaway_frame env cfg now st g i hig
        obtain ⟨t2, c2, s2⟩ :=
          setReactionCollector_frame env (setTimeoutForGiveaway env cfg now st g).1 g i hig
        obtain ⟨t3, c3, s3⟩ :=
          ih (setReactionCollector env (setTimeoutForGiveaway env cfg now st g).1 g) hi2
        refine ⟨?_, ?_, ?_⟩
        · rw [t3, t2, t1]
        · rw [c3, c2, c1]
        · rw [s3, s2, s1]

theorem keyCount_cons_self (l : List String) (i : String) :
    keyCount (i :: l) i = keyCount l i + 1 := by
  rw [keyCount_cons, if_pos rfl]

theorem restoreStep_future (env : Env) (cfg : ManagerConfig) (now : Int)
    (st : ManagerState) (a : GiveawayData)
    (hch : channelPostable env a.channelId = true)
    (hfut : ¬ (a.endAt - now ≤ 0)) :
    setReactionCollector env (setTimeoutForGiveaway env cfg now st a).1 a =
      { store := st.store,
        timeouts := a.giveawayId :: st.timeouts,
        collectors := a.giveawayId :: st.collectors } := by
  unfold setTimeoutForGiveaway
  rw [if_neg hfut]
  unfold setReactionCollector
  rw [if_pos hch]

theorem restoreStep_past (env : Env) (cfg : ManagerConfig) (now : Int)
    (st : ManagerState) (a : GiveawayData)
    (hstore : storeGet st.store a.giveawayId = some a)
    (hane : a.ended = false)
    (hch : channelPostable env a.channelId = true)
    (hpast : a.endAt - now ≤ 0) :
    setReactionCollector env (setTimeoutForGiveaway env cfg now st a).1 a =
      { store := storeSave st.store { a with ended := true },
        timeouts := mapDelete st.timeouts a.giveawayId,
        collectors := a.giveawayId :: mapDelete st.collectors a.giveawayId } := by
  unfold setTimeoutForGiveaway
  rw [if_pos hpast]
  rw [endGiveaway_finalizes env cfg st a.giveawayId false a hstore hane hch]
  unfold setReactionCollector
  rw [if_pos hch]

theorem restoreLoop_spec (env : Env) (cfg : ManagerConfig) (now : Int)
    (gs : List GiveawayData) (st : ManagerState)
    (hnd : (gs.map GiveawayData.giveawayId).Nodup)
    (hch : ∀ g ∈ gs, channelPostable env g.channelId = true)
    (hstore : ∀ g ∈ gs, storeGet st.store g.giveawayId = some g)
    (ht0 : ∀ g ∈ gs, keyCount st.timeouts g.giveawayId = 0)
    (hc0 : ∀ g ∈ gs, keyCount st.collectors g.giveawayId = 0) :
    ∀ g ∈ gs,
      (g.ended = true →
        keyCount (restoreLoop env cfg now gs st).1.timeouts g.giveawayId = 0 ∧
        keyCount (restoreLoop env cfg now gs st).1.collectors g.giveawayId = 0 ∧
        storeGet (restoreLoop env cfg now gs st).1.store g.giveawayId = some g) ∧
      (g.ended = false → 0 < g.endAt - now →
        keyCount (restoreLoop env cfg now gs st).1.timeouts g.giveawayId = 1 ∧
        keyCount (restoreLoop env cfg now gs st).1.collectors g.giveawayId = 1 ∧
        storeGet (restoreLoop env cfg now gs st).1.store g.giveawayId = some g) ∧
      (g.ended = false → g.endAt - now ≤ 0 →
        keyCount (restoreLoop env cfg now gs st).1.timeouts g.giveawayId = 0 ∧
        keyCount (restoreLoop env cfg now gs st).1.collectors g.giveawayId = 1 ∧
        storeGet (restoreLoop env cfg now gs st).1.store g.giveawayId =
          some { g with ended := true }) := by
  induction gs generalizing st with
  | nil =>
      intro g hg
      cases hg
  | cons a gs ih =>
      have hmemA : a ∈ a :: gs := List.mem_cons_self a gs
      have hna : a.giveawayId ∉ gs.map GiveawayData.giveawayId := by
        have := hnd
        rw [List.map_cons, List.nodup_cons] at this
        exact this.1
      have hnd2 : (gs.map GiveawayData.giveawayId).Nodup := by
        have := hnd
        rw [List.map_cons, List.nodup_cons] at this
        exact this.2
      intro g hg
      rcases List.mem_cons.mp hg with rfl | hmem
      · -- the head record itself
        by_cases hae : g.ended = true
        · rw [restoreLoop_cons_ended env cfg now g gs st hae]
          obtain ⟨tf, cf, sf⟩ := restoreLoop_frame env cfg now gs st g.giveawayId hna
          refine ⟨fun _ => ⟨?_, ?_, ?_⟩,
            fun hf _ => absurd hae (by simp [hf]),
            fun hf _ => absurd hae (by simp [hf])⟩
          · rw [tf]; exact ht0 g hmemA
          · rw [cf]; exact hc0 g hmemA
          · rw [sf]; exact hstore g hmemA
        · have hane : g.ended = false := by simpa using hae
          rw [restoreLoop_cons_live env cfg now g gs st hane]
          by_cases hpast : g.endAt - now ≤ 0
          · rw [restoreStep_past env cfg now st g (hstore g hmemA) hane
              (hch g hmemA) hpast]
            obtain ⟨tf, cf, sf⟩ := restoreLoop_frame env cfg now gs
              { store := storeSave st.store { g with ended := true },
                timeouts := mapDelete st.timeouts g.giveawayId,
                collectors := g.giveawayId :: mapDelete st.collectors g.giveawayId }
              g.giveawayId hna
            refine ⟨fun hf => absurd hf (by simp [hane]),
              fun _ hfut => absurd hpast (by omega),
              fun _ _ => ⟨?_, ?_, ?_⟩⟩
            · rw [tf]
              exact keyCount_mapDelete_zero _ _ _ (ht0 g hmemA)
            · rw [cf, keyCount_cons_self,
                keyCount_mapDelete_zero _ _ _ (hc0 g hmemA)]
            · rw [sf]
              exact storeGet_storeSave_self st.store { g with ended := true }
          · rw [restoreStep_future env cfg now st g (hch g hmemA) hpast]
            obtain ⟨tf, cf, sf⟩ := restoreLoop_frame env cfg now gs
              { store := st.store,
                timeouts := g.giveawayId :: st.timeouts,
                collectors := g.giveawayId :: st.collectors }
              g.giveawayId hna
            refine ⟨fun hf => absurd hf (by simp [hane]),
              fun _ _ => ⟨?_, ?_, ?_⟩,
              fun _ hp => absurd hp (by omega)⟩
            · rw [tf, keyCount_cons_self, ht0 g hmemA]
            · rw [cf, keyCount_cons_self, hc0 g hmemA]
            · rw [sf]; exact hstore g hmemA
      · -- a record further down the list
        have hgne : g.giveawayId ≠ a.giveawayId := by
          intro he
          exact hna (he ▸ List.mem_map_of_mem _ hmem)
        have hch2 : ∀ h ∈ gs, channelPostable env h.channelId = true :=
          fun h hm => hch h (List.mem_cons_of_mem a hm)
        by_cases hae : a.ended = true
        · rw [restoreLoop_cons_ended env cfg now a gs st hae]
          exact ih st hnd2 hch2
            (fun h hm => hstore h (List.mem_cons_of_mem a hm))
            (fun h hm => ht0 h (List.mem_cons_of_mem a hm))
            (fun h hm => hc0 h (List.mem_cons_of_mem a hm)) g hmem
        · have hane : a.ended = false := by simpa using hae
          rw [restoreLoop_cons_live env cfg now a gs st hane]
          have hstore2 : ∀ h ∈ gs,
              storeGet (setReactionCollector env
                (setTimeoutForGiveaway env cfg now st a).1 a).store h.giveawayId =
                some h := by
            intro h hm
            have hig : h.giveawayId ≠ a.giveawayId := by
              intro he
              exact hna (he ▸ List.mem_map_of_mem _ hm)
            rw [(setReactionCollector_frame env _ a h.giveawayId hig).2.2,
              (setTimeoutForGiveaway_frame env cfg now st a h.giveawayId hig).2.2]
            exact hstore h (List.mem_cons_of_mem a hm)
          have ht02 : ∀ h ∈ gs,
              keyCount (setReactionCollector env
                (setTimeoutForGiveaway env cfg now st a).1 a).timeouts h.giveawayId =
                0 := by
            intro h hm
            have hig : h.giveawayId ≠ a.giveawayId := by
              intro he
              exact hna (he ▸ List.mem_map_of_mem _ hm)
            rw [(setReactionCollector_frame env _ a h.giveawayId hig).1,
              (setTimeoutForGiveaway_frame env cfg now st a h.giveawayId hig).1]
            exact ht0 h (List.mem_cons_of_mem a hm)
          have hc02 : ∀ h ∈ gs,
              keyCount (setReactionCollector env
                (setTimeoutForGiveaway env cfg now st a).1 a).collectors h.giveawayId =
                0 := by
            intro h hm
            have hig : h.giveawayId ≠ a.giveawayId := by
              intro he
              exact hna (he ▸ List.mem_map_of_mem _ hm)
            rw [(setReactionCollector_frame env _ a h.giveawayId hig).2.1,
              (setTimeoutForGiveaway_frame env cfg now st a h.giveawayId hig).2.1]
            exact hc0 h (List.mem_cons_of_mem a hm)
          exact ih _ hnd2 hch2 hstore2 ht02 hc02 g hmem

/-- C2: after restoreTimeouts runs on a fresh manager over a persisted
store (distinct ids, channels available), every record that was
ended = false with endAt still in the future has exactly one armed
countdown and exactly one entry-reaction collector; a non-ended record
whose endAt is not in the future gets no timer and is finalized
immediately (its stored record becomes ended = true) while its collector
is registered once; and no record with ended = true gets a countdown or a
collector. -/
theorem restoreTimeouts_spec (env : Env) (cfg : ManagerConfig) (now : Int)
    (store : List GiveawayData)
    (hnd : (store.map GiveawayData.giveawayId).Nodup)
    (hch : ∀ g ∈ store, channelPostable env g.channelId = true) :
    ∀ g ∈ store,
      (g.ended = true →
        keyCount (restoreTimeouts env cfg now
          { store := store, timeouts := [], collectors := [] }).1.timeouts
          g.giveawayId = 0 ∧
        keyCount (restoreTimeouts env cfg now
          { store := store, timeouts := [], collectors := [] }).1.collectors
          g.giveawayId = 0 ∧
        storeGet (restoreTimeouts env cfg now
          { store := store, timeouts := [], collectors := [] }).1.store
          g.giveawayId = some g) ∧
      (g.ended = false → 0 < g.endAt - now →
        keyCount (restoreTimeouts env cfg now
          { store := store, timeouts := [], collectors := [] }).1.timeouts
          g.giveawayId = 1 ∧
        keyCount (restoreTimeouts env cfg now
          { store := store, timeouts := [], collectors := [] }).1.collectors
          g.giveawayId = 1 ∧
        storeGet (restoreTimeouts env cfg now
          { store := store, timeouts := [], collectors := [] }).1.store
          g.giveawayId = some g) ∧
      (g.ended = false → g.endAt - now ≤ 0 →
        keyCount (restoreTimeouts env cfg now
          { store := store, timeouts := [], collectors := [] }).1.timeouts
          g.giveawayId = 0 ∧
        keyCount (restoreTimeouts env cfg now
          { store := store, timeouts := [], collectors := [] }).1.collectors
          g.giveawayId = 1 ∧
        storeGet (restoreTimeouts env cfg now
          { store := store, timeouts := [], collectors := [] }).1.store
          g.giveawayId = some { g with ended := true }) :=
  restoreLoop_spec env cfg now store
    { store := store, timeouts := [], collectors := [] } hnd hch
    (fun _ hm => storeGet_of_mem_nodup hm hnd) (fun _ _ => rfl) (fun _ _ => rfl)

/-- A non-ended record whose deadline already passed at restore time. -/
def gPast : GiveawayData :=
  { giveawayId := "g3", messageId := some "m3", channelId := "c1",
    prize := "Old", winnerCount := 1, endAt := 50, ended := false,
    requirements := none }

/-- A persisted store mixing an expired record, an ended record and a
still-running record. -/
def storeMix : List GiveawayData := [gPast, gDone, gLive]

/-- Witness for `restoreTimeouts_spec`, instantiated at the expired record
of the mixed store with `now = 100`. -/
theorem restoreTimeouts_spec_witness :
    (gPast.ended = true →
      keyCount (restoreTimeouts envOk cfgId 100
        { store := storeMix, timeouts := [], collectors := [] }).1.timeouts
        gPast.giveawayId = 0 ∧
      keyCount (restoreTimeouts envOk cfgId 100
        { store := storeMix, timeouts := [], collectors := [] }).1.collectors
        gPast.giveawayId = 0 ∧
      storeGet (restoreTimeouts envOk cfgId 100
        { store := storeMix, timeouts := [], collectors := [] }).1.store
        gPast.giveawayId = some gPast) ∧
    (gPast.ended = false → 0 < gPast.endAt - 100 →
      keyCount (restoreTimeouts envOk cfgId 100
        { store := storeMix, timeouts := [], collectors := [] }).1.timeouts
        gPast.giveawayId = 1 ∧
      keyCount (restoreTimeouts envOk cfgId 100
        { store := storeMix, timeouts := [], collectors := [] }).1.collectors
        gPast.giveawayId = 1 ∧
      storeGet (restoreTimeouts envOk cfgId 100
        { store := storeMix, timeouts := [], collectors := [] }).1.store
        gPast.giveawayId = some gPast) ∧
    (gPast.ended = false → gPast.endAt - 100 ≤ 0 →
      keyCount (restoreTimeouts envOk cfgId 100
        { store := storeMix, timeouts := [], collectors := [] }).1.timeouts
        gPast.giveawayId = 0 ∧
      keyCount (restoreTimeouts envOk cfgId 100
        { store := storeMix, timeouts := [], collectors := [] }).1.collectors
        gPast.giveawayId = 1 ∧
      storeGet (restoreTimeouts envOk cfgId 100
        { store := storeMix, timeouts := [], collectors := [] }).1.store
        gPast.giveawayId = some { gPast with ended := true }) :=
  restoreTimeouts_spec envOk cfgId 100 storeMix (by decide) (by decide) gPast
    (List.mem_cons_self gPast _)
